import Mathlib

/-!
Shallow embedding of `src/rust/Japan/tokio_emulator.rs`, a poll-based
asynchronous execution model (futures, a single-threaded runtime,
sleep/timeout timing primitives, an unbounded channel, a two-way select
combinator), together with theorems settling the spec's claims about it.

Modelling conventions:
* Rust futures (`trait Future { fn poll(&mut self) -> Poll<Output> }`) are
  embedded as explicit state passing: a future is a state type `σ` together
  with a poll function `σ → σ × Poll α`.
* The `u32` counters (`Sleep.ticks`, `Sleep.elapsed`, `Timeout.remaining`)
  are modelled as `Nat`. `Timeout.remaining` is only ever decremented when
  nonzero, so no wrap can occur there; `Sleep.elapsed` is only incremented,
  and an increment past `u32::MAX` would panic in a debug build rather than
  wrap, so the non-overflowing `Nat` semantics is the code's semantics on
  every run that does not abort.
* Potentially diverging loops (`Runtime::block_on`, the `select` busy-poll
  loop) take an explicit fuel parameter and return `Option`/`none` when the
  fuel is exhausted, so every definition is total and executable.
* A Rust panic (`Option::expect`) is modelled as `Except.error` carrying the
  panic message.
-/

namespace TokioEmu

/-- From the source: `enum Poll<T> { Ready(T), Pending }`. -/
inductive Poll (α : Type) where
  | Ready : α → Poll α
  | Pending : Poll α
  deriving DecidableEq, Repr

/-- From the source: `struct TimeoutError;`. -/
inductive TimeoutError where
  | mk
  deriving DecidableEq, Repr

/-- State reached after `n` calls to `poll`, starting from `s`
(the `Poll` results along the way are discarded). -/
def iterState (poll : σ → σ × Poll α) : Nat → σ → σ
  | 0, s => s
  | n + 1, s => iterState poll n (poll s).1

/-- From the source: `struct Sleep { ticks: u32, elapsed: u32 }`. -/
structure Sleep where
  ticks : Nat
  elapsed : Nat
  deriving DecidableEq, Repr

/-- From the source: `Sleep::new(ticks)`: `Sleep { ticks, elapsed: 0 }`. -/
def Sleep.new (ticks : Nat) : Sleep :=
  { ticks := ticks, elapsed := 0 }

/-- From the source: `impl Future for Sleep`, `fn poll`: increment `elapsed`, then return
`Ready(())` when `elapsed >= ticks`, else `Pending`. -/
def Sleep.poll (s : Sleep) : Sleep × Poll Unit :=
  let s' : Sleep := { s with elapsed := s.elapsed + 1 }
  if s'.elapsed ≥ s'.ticks then (s', Poll.Ready ()) else (s', Poll.Pending)

/-- The outcome of the `k`-th poll (1-indexed) of `Sleep::new n`. -/
def nthPollSleep (n k : Nat) : Poll Unit :=
  (Sleep.poll (iterState Sleep.poll (k - 1) (Sleep.new n))).2

/-- From the source: `struct Timeout<F> { future: F, remaining: u32 }`,
with the inner future's state abstracted as `σ`. -/
structure Timeout (σ : Type) where
  future : σ
  remaining : Nat
  deriving DecidableEq, Repr

/-- From the source: `Timeout::new(future, ticks)`. -/
def Timeout.new (future : σ) (ticks : Nat) : Timeout σ :=
  { future := future, remaining := ticks }

/-- From the source: `impl Future for Timeout<F>`, `fn poll`: if `remaining == 0` return
`Ready(Err(TimeoutError))` without polling the inner future; otherwise
decrement `remaining`, poll the inner future, and return `Ready(Ok(v))` on
`Ready(v)`, `Ready(Err(TimeoutError))` on `Pending` with the decremented
budget now zero, and `Pending` otherwise. The inner future's poll function
is passed explicitly as `pollF`. -/
def Timeout.poll (pollF : σ → σ × Poll α) (t : Timeout σ) :
    Timeout σ × Poll (Except TimeoutError α) :=
  if t.remaining = 0 then (t, Poll.Ready (Except.error TimeoutError.mk))
  else
    let r := t.remaining - 1
    match pollF t.future with
    | (f', Poll.Ready output) =>
        ({ future := f', remaining := r }, Poll.Ready (Except.ok output))
    | (f', Poll.Pending) =>
        if r = 0 then ({ future := f', remaining := r }, Poll.Ready (Except.error TimeoutError.mk))
        else ({ future := f', remaining := r }, Poll.Pending)

/-- Peeling the last poll off an iteration instead of the first. -/
theorem iterState_succ_back (poll : σ → σ × Poll α) (n : Nat) (s : σ) :
    iterState poll (n + 1) s = (poll (iterState poll n s)).1 := by
  induction n generalizing s with
  | zero => rfl
  | succ n ih =>
    show iterState poll (n + 1) (poll s).1 = _
    rw [ih]
    rfl

/-- Polling a sleep always advances its `elapsed` counter by one,
whether or not it reports ready. -/
theorem Sleep.poll_state (s : Sleep) :
    (Sleep.poll s).1 = { s with elapsed := s.elapsed + 1 } := by
  unfold Sleep.poll
  dsimp only
  split <;> rfl

/-- Polling a sleep `m` times only advances its `elapsed` counter by `m`. -/
theorem Sleep.iter_elapsed (m : Nat) (s : Sleep) :
    iterState Sleep.poll m s = { s with elapsed := s.elapsed + m } := by
  induction m generalizing s with
  | zero => rfl
  | succ m ih =>
    show iterState Sleep.poll m (Sleep.poll s).1 = _
    rw [Sleep.poll_state, ih]
    simp [Nat.add_comm, Nat.add_assoc, Nat.add_left_comm]

/-- The second component of `Sleep.poll` is `Ready` exactly when the
incremented counter meets the threshold. -/
theorem Sleep.poll_snd (s : Sleep) :
    (Sleep.poll s).2 = (if s.elapsed + 1 ≥ s.ticks then Poll.Ready () else Poll.Pending) := by
  unfold Sleep.poll
  dsimp only
  split <;> simp_all

/-- C4: `Sleep::new n` first returns `Ready(())` on exactly its `n`-th poll
when `n > 0` (all earlier polls return `Pending`), and on its first poll
when `n = 0`. -/
theorem sleep_first_ready (n : Nat) :
    (∀ k, 1 ≤ k → k < n → nthPollSleep n k = Poll.Pending) ∧
    (0 < n → nthPollSleep n n = Poll.Ready ()) ∧
    (n = 0 → nthPollSleep n 1 = Poll.Ready ()) := by
  have key : ∀ k, 1 ≤ k → nthPollSleep n k =
      (if k ≥ n then Poll.Ready () else Poll.Pending) := by
    intro k hk
    unfold nthPollSleep
    rw [Sleep.iter_elapsed, Sleep.poll_snd]
    simp only [Sleep.new]
    have hk1 : 0 + (k - 1) + 1 = k := by omega
    simp only [hk1]
  refine ⟨?_, ?_, ?_⟩
  · intro k hk hkn
    rw [key k hk]
    exact if_neg (by omega)
  · intro hn
    rw [key n hn]
    simp
  · intro hn
    subst hn
    rw [key 1 (le_refl 1)]
    simp

/-- Witness for C4 at concrete inputs: `Sleep::new 3` is pending on poll 2,
ready on poll 3; `Sleep::new 0` is ready on poll 1. -/
theorem sleep_first_ready_witness :
    nthPollSleep 3 2 = Poll.Pending ∧
    nthPollSleep 3 3 = Poll.Ready () ∧
    nthPollSleep 0 1 = Poll.Ready () :=
  ⟨(sleep_first_ready 3).1 2 (by decide) (by decide),
   (sleep_first_ready 3).2.1 (by decide),
   (sleep_first_ready 0).2.2 rfl⟩

/-- C5: once a `Sleep` has returned `Ready(())`, every subsequent poll —
after any number of further polls — still returns `Ready(())`. -/
theorem sleep_ready_stays_ready (s : Sleep) (h : (Sleep.poll s).2 = Poll.Ready ())
    (m : Nat) : (Sleep.poll (iterState Sleep.poll m s)).2 = Poll.Ready () := by
  rw [Sleep.poll_snd] at h
  have hts : s.ticks ≤ s.elapsed + 1 := by
    by_contra hc
    rw [if_neg hc] at h
    exact Poll.noConfusion h
  rw [Sleep.iter_elapsed, Sleep.poll_snd]
  simp only
  rw [if_pos (by omega)]

/-- Witness for C5: `Sleep { ticks := 2, elapsed := 5 }` polls `Ready`,
and still does after 4 more polls. -/
theorem sleep_ready_stays_ready_witness :
    (Sleep.poll (iterState Sleep.poll 4 { ticks := 2, elapsed := 5 })).2 = Poll.Ready () :=
  sleep_ready_stays_ready { ticks := 2, elapsed := 5 } (by decide) 4

/-- C1: full behaviour of one `Timeout::poll` call, for any inner future
(any state type `σ`, any poll function `pollF`, any state). With zero
budget the result is `Ready(Err(TimeoutError))` and the inner future is not
polled (the whole `Timeout` state, inner state included, is unchanged, for
every `pollF`); otherwise the budget is decremented and the inner future is
polled exactly once, with `Ready v ↦ Ready (Ok v)`,
`Pending` with exhausted budget `↦ Ready (Err TimeoutError)`, and
`Pending` otherwise `↦ Pending`; in particular `Timeout::new(f, 0)` resolves
to `Err` on its very first poll regardless of `f`. -/
theorem timeout_poll_spec (σ α : Type) (pollF : σ → σ × Poll α) (t : Timeout σ) :
    (t.remaining = 0 →
      Timeout.poll pollF t = (t, Poll.Ready (Except.error TimeoutError.mk))) ∧
    (∀ f' v, t.remaining ≠ 0 → pollF t.future = (f', Poll.Ready v) →
      Timeout.poll pollF t =
        ({ future := f', remaining := t.remaining - 1 }, Poll.Ready (Except.ok v))) ∧
    (∀ f', t.remaining ≠ 0 → pollF t.future = (f', Poll.Pending) → t.remaining - 1 = 0 →
      Timeout.poll pollF t =
        ({ future := f', remaining := t.remaining - 1 },
          Poll.Ready (Except.error TimeoutError.mk))) ∧
    (∀ f', t.remaining ≠ 0 → pollF t.future = (f', Poll.Pending) → t.remaining - 1 ≠ 0 →
      Timeout.poll pollF t = ({ future := f', remaining := t.remaining - 1 }, Poll.Pending)) ∧
    (Timeout.poll pollF (Timeout.new t.future 0)).2 =
      Poll.Ready (Except.error TimeoutError.mk) := by
  refine ⟨?_, ?_, ?_, ?_, ?_⟩
  · intro h0
    unfold Timeout.poll
    rw [if_pos h0]
  · intro f' v hne hp
    unfold Timeout.poll
    rw [if_neg hne]
    dsimp only
    rw [hp]
  · intro f' hne hp hr
    unfold Timeout.poll
    rw [if_neg hne]
    dsimp only
    rw [hp]
    dsimp only
    rw [if_pos hr]
  · intro f' hne hp hr
    unfold Timeout.poll
    rw [if_neg hne]
    dsimp only
    rw [hp]
    dsimp only
    rw [if_neg hr]
  · unfold Timeout.poll Timeout.new
    rw [if_pos rfl]

/-- Witness for C1, with `Sleep` futures as the inner future: a zero budget
times out immediately; an immediately-ready sleep gives `Ok`; a pending
sleep on the last budget tick gives `Err`; a pending sleep with budget left
gives `Pending`. -/
theorem timeout_poll_spec_witness :
    Timeout.poll Sleep.poll { future := Sleep.new 5, remaining := 0 } =
      ({ future := Sleep.new 5, remaining := 0 },
        Poll.Ready (Except.error TimeoutError.mk)) ∧
    Timeout.poll Sleep.poll { future := Sleep.new 1, remaining := 5 } =
      ({ future := { ticks := 1, elapsed := 1 }, remaining := 4 },
        Poll.Ready (Except.ok ())) ∧
    Timeout.poll Sleep.poll { future := Sleep.new 5, remaining := 1 } =
      ({ future := { ticks := 5, elapsed := 1 }, remaining := 0 },
        Poll.Ready (Except.error TimeoutError.mk)) ∧
    Timeout.poll Sleep.poll { future := Sleep.new 5, remaining := 3 } =
      ({ future := { ticks := 5, elapsed := 1 }, remaining := 2 }, Poll.Pending) :=
  ⟨(timeout_poll_spec Sleep Unit Sleep.poll { future := Sleep.new 5, remaining := 0 }).1 rfl,
   (timeout_poll_spec Sleep Unit Sleep.poll
     { future := Sleep.new 1, remaining := 5 }).2.1 _ () (by decide) rfl,
   (timeout_poll_spec Sleep Unit Sleep.poll
     { future := Sleep.new 5, remaining := 1 }).2.2.1 _ (by decide) rfl rfl,
   (timeout_poll_spec Sleep Unit Sleep.poll
     { future := Sleep.new 5, remaining := 3 }).2.2.2.1 _ (by decide) rfl (by decide)⟩

/-- When the budget is nonzero, polling a `Timeout` always updates its state
to the once-polled inner future and the decremented budget, whatever the
poll results are. -/
theorem Timeout.poll_decrements (pollF : σ → σ × Poll α) (t : Timeout σ) (h : t.remaining ≠ 0) :
    (Timeout.poll pollF t).1 =
      { future := (pollF t.future).1, remaining := t.remaining - 1 } := by
  unfold Timeout.poll
  rw [if_neg h]
  dsimp only
  cases hp : pollF t.future with
  | mk f' p =>
    cases p with
    | Ready v => simp [hp]
    | Pending =>
      dsimp only
      split <;> simp [hp]

/-- The state of `Timeout::new(Sleep::new n, b)` after `k ≤ b` polls: the
sleep has elapsed `k` ticks and the budget has dropped to `b - k`. -/
theorem timeoutSleep_state (n b k : Nat) (hk : k ≤ b) :
    iterState (Timeout.poll Sleep.poll) k (Timeout.new (Sleep.new n) b) =
      { future := { ticks := n, elapsed := k }, remaining := b - k } := by
  induction k with
  | zero => rfl
  | succ k ih =>
    rw [iterState_succ_back, ih (by omega),
      Timeout.poll_decrements Sleep.poll _ (by simp; omega), Sleep.poll_state]
    simp [Nat.sub_sub]

/-- The outcome of the `k`-th poll (1-indexed) of
`Timeout::new(Sleep::new n, b)`. -/
def nthPollTimeoutSleep (n b k : Nat) : Poll (Except TimeoutError Unit) :=
  (Timeout.poll Sleep.poll
    (iterState (Timeout.poll Sleep.poll) (k - 1) (Timeout.new (Sleep.new n) b))).2

/-- Counterexample to C2: for `Timeout::new(Sleep::new 1, 1)` the sleep
becomes ready on the exact poll that exhausts the budget, yet the very
first poll returns `Ready(Ok(()))`, not `Ready(Err(TimeoutError))` — the
inner future's `Ready` takes precedence over the exhausted budget. -/
theorem timeout_exact_tick_counterexample :
    (Timeout.poll Sleep.poll (Timeout.new (Sleep.new 1) 1)).2 = Poll.Ready (Except.ok ()) ∧
    (Timeout.poll Sleep.poll (Timeout.new (Sleep.new 1) 1)).2 ≠
      Poll.Ready (Except.error TimeoutError.mk) := by
  constructor
  · rfl
  · intro h
    rw [show (Timeout.poll Sleep.poll (Timeout.new (Sleep.new 1) 1)).2 =
      Poll.Ready (Except.ok ()) from rfl] at h
    simp at h

/-- C2 amended: for `Timeout::new(Sleep::new n, n)` with `n ≥ 1`, the first
`n - 1` polls are `Pending` and the `n`-th poll — on which the budget is
exhausted and the sleep first becomes ready — returns `Ready(Ok(()))`: the
tick is consumed first, but the inner future's `Ready` result is checked
before the exhausted budget, so the race resolves to `Ok`, not to a
timeout. -/
theorem timeout_exact_tick_ok (n : Nat) (h : 1 ≤ n) :
    (∀ k, 1 ≤ k → k < n → nthPollTimeoutSleep n n k = Poll.Pending) ∧
    nthPollTimeoutSleep n n n = Poll.Ready (Except.ok ()) := by
  constructor
  · intro k hk hkn
    unfold nthPollTimeoutSleep
    rw [timeoutSleep_state n n (k - 1) (by omega)]
    unfold Timeout.poll
    rw [if_neg (by simp; omega)]
    dsimp only
    have hs : Sleep.poll { ticks := n, elapsed := k - 1 } =
        ({ ticks := n, elapsed := k }, Poll.Pending) := by
      unfold Sleep.poll
      dsimp only
      rw [if_neg (by simp; omega)]
      congr 2
      omega
    rw [hs]
    dsimp only
    rw [if_neg (by omega)]
  · unfold nthPollTimeoutSleep
    rw [timeoutSleep_state n n (n - 1) (by omega)]
    unfold Timeout.poll
    rw [if_neg (by simp; omega)]
    dsimp only
    have hs : Sleep.poll { ticks := n, elapsed := n - 1 } =
        ({ ticks := n, elapsed := n - 1 + 1 }, Poll.Ready ()) := by
      unfold Sleep.poll
      dsimp only
      rw [if_pos (by simp; omega)]
    rw [hs]

/-- Witness for the amended C2 at `n = 2`: the first poll of
`Timeout::new(Sleep::new 2, 2)` is `Pending`, the second is
`Ready(Ok(()))`. -/
theorem timeout_exact_tick_ok_witness :
    nthPollTimeoutSleep 2 2 1 = Poll.Pending ∧
    nthPollTimeoutSleep 2 2 2 = Poll.Ready (Except.ok ()) :=
  ⟨(timeout_exact_tick_ok 2 (by decide)).1 1 (by decide) (by decide),
   (timeout_exact_tick_ok 2 (by decide)).2⟩

/-- From the source: `Runtime::block_on`: poll the driven future; on
`Ready(output)` return it, on `Pending` service the runtime's background
task queue (`process_tasks`) and re-poll. The runtime's queue state is
abstracted as `ρ` with `procTasks` for `process_tasks`; since the Rust loop
may never terminate, an explicit fuel bounds the number of polls and `none`
marks fuel exhaustion. -/
def blockOn (procTasks : ρ → ρ) (pollF : σ → σ × Poll α) :
    Nat → ρ → σ → Option α
  | 0, _, _ => none
  | fuel + 1, rt, s =>
    match pollF s with
    | (_, Poll.Ready output) => some output
    | (s', Poll.Pending) => blockOn procTasks pollF fuel (procTasks rt) s'

/-- A `Ready` poll ends `block_on` at once with its value. -/
theorem blockOn_ready (procTasks : ρ → ρ) (pollF : σ → σ × Poll α) (fuel : Nat)
    (rt : ρ) (s s' : σ) (v : α) (h : pollF s = (s', Poll.Ready v)) :
    blockOn procTasks pollF (fuel + 1) rt s = some v := by
  unfold blockOn
  rw [h]

/-- A `Pending` poll makes `block_on` service the task queue and re-poll. -/
theorem blockOn_pending (procTasks : ρ → ρ) (pollF : σ → σ × Poll α) (fuel : Nat)
    (rt : ρ) (s s' : σ) (h : pollF s = (s', Poll.Pending)) :
    blockOn procTasks pollF (fuel + 1) rt s =
      blockOn procTasks pollF fuel (procTasks rt) s' := by
  conv_lhs => rw [blockOn, h]

/-- C3: for a runtime in any state of its background queue (any queue state
type `ρ`, any `procTasks`, any starting state `rt`) and any sufficient
fuel, `block_on(Timeout::new(Sleep::new 10, 5))` returns
`Err(TimeoutError)` and `block_on(Timeout::new(Sleep::new 2, 5))` returns
`Ok(())`. -/
theorem block_on_timeout_scenarios (ρ : Type) (procTasks : ρ → ρ) (rt : ρ)
    (fuelA fuelB : Nat) (hA : 5 ≤ fuelA) (hB : 2 ≤ fuelB) :
    blockOn procTasks (Timeout.poll Sleep.poll) fuelA rt (Timeout.new (Sleep.new 10) 5) =
      some (Except.error TimeoutError.mk) ∧
    blockOn procTasks (Timeout.poll Sleep.poll) fuelB rt (Timeout.new (Sleep.new 2) 5) =
      some (Except.ok ()) := by
  constructor
  · obtain ⟨m, rfl⟩ : ∃ m, fuelA = m + 5 := ⟨fuelA - 5, by omega⟩
    have p1 : Timeout.poll Sleep.poll (Timeout.new (Sleep.new 10) 5) =
        ({ future := { ticks := 10, elapsed := 1 }, remaining := 4 }, Poll.Pending) := rfl
    have p2 : Timeout.poll Sleep.poll { future := { ticks := 10, elapsed := 1 }, remaining := 4 } =
        ({ future := { ticks := 10, elapsed := 2 }, remaining := 3 }, Poll.Pending) := rfl
    have p3 : Timeout.poll Sleep.poll { future := { ticks := 10, elapsed := 2 }, remaining := 3 } =
        ({ future := { ticks := 10, elapsed := 3 }, remaining := 2 }, Poll.Pending) := rfl
    have p4 : Timeout.poll Sleep.poll { future := { ticks := 10, elapsed := 3 }, remaining := 2 } =
        ({ future := { ticks := 10, elapsed := 4 }, remaining := 1 }, Poll.Pending) := rfl
    have p5 : Timeout.poll Sleep.poll { future := { ticks := 10, elapsed := 4 }, remaining := 1 } =
        ({ future := { ticks := 10, elapsed := 5 }, remaining := 0 },
          Poll.Ready (Except.error TimeoutError.mk)) := rfl
    rw [show m + 5 = m + 4 + 1 from by omega, blockOn_pending _ _ _ _ _ _ p1,
      show m + 4 = m + 3 + 1 from by omega, blockOn_pending _ _ _ _ _ _ p2,
      show m + 3 = m + 2 + 1 from by omega, blockOn_pending _ _ _ _ _ _ p3,
      show m + 2 = m + 1 + 1 from by omega, blockOn_pending _ _ _ _ _ _ p4,
      blockOn_ready _ _ _ _ _ _ _ p5]
  · obtain ⟨m, rfl⟩ : ∃ m, fuelB = m + 2 := ⟨fuelB - 2, by omega⟩
    have q1 : Timeout.poll Sleep.poll (Timeout.new (Sleep.new 2) 5) =
        ({ future := { ticks := 2, elapsed := 1 }, remaining := 4 }, Poll.Pending) := rfl
    have q2 : Timeout.poll Sleep.poll { future := { ticks := 2, elapsed := 1 }, remaining := 4 } =
        ({ future := { ticks := 2, elapsed := 2 }, remaining := 3 },
          Poll.Ready (Except.ok ())) := rfl
    rw [show m + 2 = m + 1 + 1 from by omega, blockOn_pending _ _ _ _ _ _ q1,
      blockOn_ready _ _ _ _ _ _ _ q2]

/-- Witness for C3 with a trivial background queue (`Unit`, identity
`process_tasks`) and exact fuel. -/
theorem block_on_timeout_scenarios_witness :
    blockOn id (Timeout.poll Sleep.poll) 5 () (Timeout.new (Sleep.new 10) 5) =
      some (Except.error TimeoutError.mk) ∧
    blockOn id (Timeout.poll Sleep.poll) 2 () (Timeout.new (Sleep.new 2) 5) =
      some (Except.ok ()) :=
  ⟨(block_on_timeout_scenarios Unit id () 5 2 (by decide) (by decide)).1,
   (block_on_timeout_scenarios Unit id () 5 2 (by decide) (by decide)).2⟩

/-- From the source: `struct Channel<T> { buffer: Vec<T> }`. -/
structure Channel (α : Type) where
  buffer : List α
  deriving DecidableEq, Repr

/-- From the source: `Channel::new()`: an empty buffer. -/
def Channel.new : Channel α :=
  { buffer := [] }

/-- From the source: `Channel::send(value)`: `self.buffer.push(value)`,
appending at the back. -/
def Channel.send (c : Channel α) (value : α) : Channel α :=
  { buffer := c.buffer ++ [value] }

/-- From the source: `Channel::try_recv()`: `None` on an empty buffer, else
`Some(self.buffer.remove(0))`, removing the front element. -/
def Channel.try_recv (c : Channel α) : Channel α × Option α :=
  match c.buffer with
  | [] => (c, none)
  | x :: rest => ({ buffer := rest }, some x)

/-- The results of `n` successive `try_recv` calls starting from `c`. -/
def recvTrace : Nat → Channel α → List (Option α)
  | 0, _ => []
  | n + 1, c =>
    match Channel.try_recv c with
    | (c', r) => r :: recvTrace n c'

/-- Sending onto a channel appends the values, in order, to its buffer. -/
theorem Channel.foldl_send (vs : List α) (c : Channel α) :
    List.foldl Channel.send c vs = { buffer := c.buffer ++ vs } := by
  induction vs generalizing c with
  | nil => simp
  | cons v vs ih =>
    simp [List.foldl_cons, ih, Channel.send]

/-- The `try_recv` traces drain the buffer front-to-back, then yield `none`. -/
theorem recvTrace_buffer (l : List α) (extra : Nat) :
    recvTrace (l.length + extra) { buffer := l } =
      l.map some ++ List.replicate extra none := by
  induction l with
  | nil =>
    simp only [List.length_nil, Nat.zero_add, List.map_nil, List.nil_append]
    induction extra with
    | zero => rfl
    | succ e ih =>
      show (none : Option α) :: recvTrace e { buffer := [] } = _
      rw [ih, List.replicate_succ]
  | cons x rest ih =>
    have hlen : (x :: rest).length + extra = (rest.length + extra) + 1 := by
      simp only [List.length_cons]
      omega
    rw [hlen]
    show some x :: recvTrace (rest.length + extra) { buffer := rest } = _
    rw [ih]
    simp

/-- C6: sending `v1..vn` on a fresh channel with no interleaved receives
makes the next `n` `try_recv` calls return `some v1, …, some vn` in that
order, and every `try_recv` after the buffer is exhausted returns `none`. -/
theorem channel_fifo (α : Type) (vs : List α) (extra : Nat) :
    recvTrace (vs.length + extra) (List.foldl Channel.send Channel.new vs) =
      vs.map some ++ List.replicate extra none := by
  rw [Channel.foldl_send]
  show recvTrace (vs.length + extra) { buffer := vs } = _
  exact recvTrace_buffer vs extra

/-- From the source: `enum TaskState<T> { Running, Ready(T) }`. -/
inductive TaskState (α : Type) where
  | Running
  | Ready (value : α)
  deriving DecidableEq, Repr

/-- From the source: `struct Task<T> { state: TaskState<T> }`. -/
structure Task (α : Type) where
  state : TaskState α
  deriving DecidableEq, Repr

/-- From the source: `Task::new()`: state `Running`. -/
def Task.new : Task α :=
  { state := TaskState.Running }

/-- From the source: `Task::complete(value)`: set state to `Ready(value)`. -/
def Task.complete (t : Task α) (value : α) : Task α :=
  { state := TaskState.Ready value }

/-- From the source: `Task::is_ready()`. -/
def Task.is_ready (t : Task α) : Bool :=
  match t.state with
  | TaskState.Ready _ => true
  | TaskState.Running => false

/-- From the source: `impl Future for Task<T>`, `fn poll`: `Ready(value.clone())` when the
state is `Ready`, `Pending` while `Running`; the state is not modified. -/
def Task.poll (t : Task α) : Task α × Poll α :=
  match t.state with
  | TaskState.Ready value => (t, Poll.Ready value)
  | TaskState.Running => (t, Poll.Pending)

/-- Polling a task never changes its state. -/
theorem Task.poll_preserves (t : Task α) : (Task.poll t).1 = t := by
  unfold Task.poll
  cases t.state <;> rfl

/-- Iterated polling leaves a task unchanged. -/
theorem Task.iter_id (m : Nat) (t : Task α) :
    iterState Task.poll m t = t := by
  induction m generalizing t with
  | zero => rfl
  | succ m ih =>
    show iterState Task.poll m (Task.poll t).1 = t
    rw [Task.poll_preserves, ih]

/-- C7: a `Task` polled any number of times before `complete` returns
`Pending` on every such poll; after `complete v` (with no further
`complete`), every subsequent poll returns `Ready v`, the same value each
time. -/
theorem task_poll_spec (α : Type) (v : α) (t : Task α) (m k : Nat) :
    (Task.poll (iterState Task.poll m (Task.new : Task α))).2 = Poll.Pending ∧
    (Task.poll (iterState Task.poll k (Task.complete t v))).2 = Poll.Ready v := by
  rw [Task.iter_id, Task.iter_id]
  exact ⟨rfl, rfl⟩

/-- From the source: `enum Select<A, B> { First(A), Second(B) }`. -/
inductive Select (α β : Type) where
  | First (a : α)
  | Second (b : β)
  deriving DecidableEq, Repr

/-- From the source: `fn select(a, b)`: poll `a`; if ready return
`First(output)` without polling `b`; else poll `b`; if ready return
`Second(output)`; else repeat the round. The Rust body polls `a` then `b`
once before entering a loop that does exactly the same, so the rounds form
one uniform sequence. The busy-poll loop may never terminate, so an
explicit fuel bounds the number of rounds and `none` marks exhaustion. -/
def select (pollA : σ → σ × Poll α) (pollB : τ → τ × Poll β) :
    Nat → σ → τ → Option (Select α β)
  | 0, _, _ => none
  | fuel + 1, sa, sb =>
    match pollA sa with
    | (_, Poll.Ready output) => some (Select.First output)
    | (sa', Poll.Pending) =>
      match pollB sb with
      | (_, Poll.Ready output) => some (Select.Second output)
      | (sb', Poll.Pending) => select pollA pollB fuel sa' sb'

/-- A pair whose second component is `Pending` is the pair of its own first
component and `Pending`. -/
theorem pair_snd_pending (pr : σ × Poll α) (h : pr.2 = Poll.Pending) :
    pr = (pr.1, Poll.Pending) := by
  cases pr with
  | mk x p => rw [show p = Poll.Pending from h]

/-- C8: `select` polls `a` first on every round. If `a`'s first poll is
`Ready v`, the result is `First v` for every `b` (with `pollB` and `sb`
universally quantified, `b` cannot influence the round — it is not
polled). If `a` is never ready (every poll of `a` is `Pending`) while `b`
first becomes ready after finitely many polls (`Pending` for its first `k`
polls, `Ready w` on the next), `select` returns `Second w`. -/
theorem select_spec (σ τ α β : Type) (pollA : σ → σ × Poll α)
    (pollB : τ → τ × Poll β) (sa : σ) (sb : τ) :
    (∀ sa' v, pollA sa = (sa', Poll.Ready v) →
      ∀ fuel, select pollA pollB (fuel + 1) sa sb = some (Select.First v)) ∧
    (∀ k sbk w, (∀ s, (pollA s).2 = Poll.Pending) →
      (∀ j, j < k → (pollB (iterState pollB j sb)).2 = Poll.Pending) →
      pollB (iterState pollB k sb) = (sbk, Poll.Ready w) →
      select pollA pollB (k + 1) sa sb = some (Select.Second w)) := by
  constructor
  · intro sa' v hp fuel
    show (match pollA sa with
      | (_, Poll.Ready output) => some (Select.First output)
      | (sa', Poll.Pending) =>
        match pollB sb with
        | (_, Poll.Ready output) => some (Select.Second output)
        | (sb', Poll.Pending) => select pollA pollB fuel sa' sb') = _
    rw [hp]
  · intro k
    induction k generalizing sa sb with
    | zero =>
      intro sbk w hA hBpre hBready
      have hpa : pollA sa = ((pollA sa).1, Poll.Pending) :=
        pair_snd_pending (pollA sa) (hA sa)
      show (match pollA sa with
        | (_, Poll.Ready output) => some (Select.First output)
        | (sa', Poll.Pending) =>
          match pollB sb with
          | (_, Poll.Ready output) => some (Select.Second output)
          | (sb', Poll.Pending) => select pollA pollB 0 sa' sb') = _
      rw [hpa]
      dsimp only
      have hb0 : pollB sb = (sbk, Poll.Ready w) := hBready
      rw [hb0]
    | succ k ih =>
      intro sbk w hA hBpre hBready
      have hpa : pollA sa = ((pollA sa).1, Poll.Pending) :=
        pair_snd_pending (pollA sa) (hA sa)
      have hpb : pollB sb = ((pollB sb).1, Poll.Pending) :=
        pair_snd_pending (pollB sb) (hBpre 0 (Nat.zero_lt_succ k))
      show (match pollA sa with
        | (_, Poll.Ready output) => some (Select.First output)
        | (sa', Poll.Pending) =>
          match pollB sb with
          | (_, Poll.Ready output) => some (Select.Second output)
          | (sb', Poll.Pending) => select pollA pollB (k + 1) sa' sb') = _
      rw [hpa]
      dsimp only
      rw [hpb]
      dsimp only
      refine ih (pollA sa).1 (pollB sb).1 sbk w hA ?_ ?_
      · intro j hj
        exact hBpre (j + 1) (by omega)
      · exact hBready

/-- Witness for C8: with `a` and `b` both a `Sleep::new 1`, ready on their
first poll, `select` returns `First ()` (the bias tie-break); with `a` a
never-ready future (constantly `Pending`) and `b` a `Sleep::new 2`, ready
on its second poll, `select` returns `Second ()`. -/
theorem select_spec_witness :
    select Sleep.poll Sleep.poll 1 (Sleep.new 1) (Sleep.new 1) =
      some (Select.First ()) ∧
    select (fun s : Unit => (s, (Poll.Pending : Poll Unit))) Sleep.poll 2 () (Sleep.new 2) =
      some (Select.Second ()) := by
  constructor
  · exact (select_spec Sleep Sleep Unit Unit Sleep.poll Sleep.poll
      (Sleep.new 1) (Sleep.new 1)).1 { ticks := 1, elapsed := 1 } () rfl 0
  · exact (select_spec Unit Sleep Unit Unit
      (fun s : Unit => (s, (Poll.Pending : Poll Unit)))
      Sleep.poll () (Sleep.new 2)).2 1 { ticks := 2, elapsed := 2 } ()
      (fun _ => rfl)
      (fun j hj => by
        have hj0 : j = 0 := by omega
        subst hj0
        rfl)
      rfl

/-- From the source: `struct AsyncFn<F, T> { func: F, executed: bool }`.
The Rust `FnMut() -> T` closure is embedded as an explicit closure-state
type `γ` together with a transition `func : γ → γ × α`: invoking the
closure once maps its captured state to the updated state and the returned
value. -/
structure AsyncFn (γ α : Type) where
  func : γ → γ × α
  fstate : γ
  executed : Bool

/-- From the source: `AsyncFn::new(func)`: not yet executed. -/
def AsyncFn.new (func : γ → γ × α) (fstate : γ) : AsyncFn γ α :=
  { func := func, fstate := fstate, executed := false }

/-- From the source: `impl Future for AsyncFn`, `fn poll`: if not yet executed, mark
executed, invoke the closure once and return `Ready(result)`; else
`Pending`. -/
def AsyncFn.poll (a : AsyncFn γ α) : AsyncFn γ α × Poll α :=
  if !a.executed then
    let r := a.func a.fstate
    ({ a with fstate := r.1, executed := true }, Poll.Ready r.2)
  else (a, Poll.Pending)

/-- From the source: `fn async_block(func)`: `AsyncFn::new(func)`. -/
def async_block (func : γ → γ × α) (fstate : γ) : AsyncFn γ α :=
  AsyncFn.new func fstate

/-- An already-executed `AsyncFn` polls `Pending` and is left unchanged
(in particular its closure state is untouched, so the closure is not
re-invoked). -/
theorem AsyncFn.poll_executed (a : AsyncFn γ α) (h : a.executed = true) :
    AsyncFn.poll a = (a, Poll.Pending) := by
  unfold AsyncFn.poll
  rw [h]
  rfl

/-- C9: the first poll of an `AsyncFn` invokes the wrapped computation
exactly once — the resulting closure state is one application of `func` —
and returns `Ready` with its result; after any number of further polls the
state is still that single application (the computation is never
re-executed) and every such poll returns `Pending`. -/
theorem asyncfn_poll_spec (γ α : Type) (func : γ → γ × α) (g : γ) (m : Nat) :
    AsyncFn.poll (AsyncFn.new func g) =
      ({ func := func, fstate := (func g).1, executed := true },
        Poll.Ready (func g).2) ∧
    iterState AsyncFn.poll (m + 1) (AsyncFn.new func g) =
      { func := func, fstate := (func g).1, executed := true } ∧
    (AsyncFn.poll (iterState AsyncFn.poll (m + 1) (AsyncFn.new func g))).2 =
      Poll.Pending := by
  have hfirst : AsyncFn.poll (AsyncFn.new func g) =
      ({ func := func, fstate := (func g).1, executed := true },
        Poll.Ready (func g).2) := rfl
  have hdone : ∀ n, iterState AsyncFn.poll n
      { func := func, fstate := (func g).1, executed := true } =
      { func := func, fstate := (func g).1, executed := true } := by
    intro n
    induction n with
    | zero => rfl
    | succ n ih =>
      show iterState AsyncFn.poll n
        (AsyncFn.poll { func := func, fstate := (func g).1, executed := true }).1 = _
      rw [AsyncFn.poll_executed _ rfl]
      exact ih
  have hiter : iterState AsyncFn.poll (m + 1) (AsyncFn.new func g) =
      { func := func, fstate := (func g).1, executed := true } := by
    show iterState AsyncFn.poll m (AsyncFn.poll (AsyncFn.new func g)).1 = _
    rw [hfirst]
    exact hdone m
  refine ⟨hfirst, hiter, ?_⟩
  rw [hiter, AsyncFn.poll_executed _ rfl]

/-- From the source: `struct JoinHandle<T> { result: Option<T> }`. -/
structure JoinHandle (α : Type) where
  result : Option α
  deriving DecidableEq, Repr

/-- From the source: `JoinHandle::new(result)`: stores `Some(result)`. -/
def JoinHandle.new (result : α) : JoinHandle α :=
  { result := some result }

/-- From the source: `JoinHandle::await_result(self)`:
`self.result.take().expect("Result already taken")`. The handle is
consumed by value; the panic of `expect` on an empty cell is modelled as
`Except.error` carrying the panic message. -/
def JoinHandle.await_result (h : JoinHandle α) : Except String α :=
  match h.result with
  | some v => Except.ok v
  | none => Except.error "Result already taken"

/-- C10: `JoinHandle::new(v).await_result()` returns exactly `v`, and the
panic branch is unreachable for handles built by `new`: since `new` always
stores `Some v` and `await_result` consumes the handle by value, its result
is never the error. -/
theorem joinhandle_await_result (α : Type) (v : α) :
    JoinHandle.await_result (JoinHandle.new v) = Except.ok v ∧
    JoinHandle.await_result (JoinHandle.new v) ≠
      Except.error "Result already taken" := by
  refine ⟨rfl, ?_⟩
  intro h
  rw [show JoinHandle.await_result (JoinHandle.new v) = Except.ok v from rfl] at h
  exact Except.noConfusion h

end TokioEmu
